import Mathlib

/-!
Verification model of the Frontegg AgentLink Terraform provider
(`internal/client/client.go`, `internal/provider/provider.go`,
`internal/provider/resource_tools_import.go`).

The HTTP world is modelled by an explicit state `St`: the client's fields
(`Client`), a script of pending transport outcomes (`Except String Response`,
consumed in order by each HTTP call), and a trace `sent` of every request
actually issued.  Each Go method becomes a Lean function
`... → St → Except String α × St` threading this state; `time.Now()` is an
explicit `now : Int` argument.  Response bodies carry both the raw text (used
by the Go error paths via `io.ReadAll`) and the already-decoded JSON value
(what `json.Decoder.Decode` would yield), with a `malformed` case for decode
failures.
-/

namespace Agentlink

/-- Mirror of `AuthResponse` (token, expiresIn) from client.go. -/
structure AuthResponse where
  token : String
  expiresIn : Int
  deriving DecidableEq, Repr

/-- Mirror of `Application` from client.go. -/
structure Application where
  id : String
  vendorID : String
  name : String
  appURL : String
  loginURL : String
  logoURL : String
  accessType : String
  isDefault : Bool
  isActive : Bool
  type : String
  frontendStack : String
  description : String
  createdAt : String
  updatedAt : String
  deriving DecidableEq, Repr

/-- Mirror of `CreateApplicationRequest` from client.go. -/
structure CreateApplicationRequest where
  name : String
  appURL : String
  loginURL : String
  type : String
  deriving DecidableEq, Repr

/-- Mirror of `Source` from client.go. -/
structure Source where
  id : String
  vendorID : String
  appID : String
  name : String
  type : String
  sourceURL : String
  secret : String
  apiTimeout : Int
  enabled : Bool
  deriving DecidableEq, Repr

/-- Mirror of `CreateSourceRequest` from client.go. -/
structure CreateSourceRequest where
  appID : String
  name : String
  type : String
  sourceURL : String
  apiTimeout : Int
  enabled : Bool
  deriving DecidableEq, Repr

/-- Mirror of `InternalTool` from client.go; the free-form JSON `Schema`
map is modelled as an association list. -/
structure InternalTool where
  id : String
  vendorID : String
  appID : String
  name : String
  description : String
  originalMethod : String
  originalPath : String
  isActive : Bool
  schema : List (String × String)
  authenticationType : String
  sourceID : String
  deriving DecidableEq, Repr

/-- Mirror of `UpsertToolsRequest` from client.go. -/
structure UpsertToolsRequest where
  appID : String
  toolType : String
  tools : List InternalTool
  deriving DecidableEq, Repr

/-- Mirror of `VendorConfig` from the client (vendor methods file). -/
structure VendorConfig where
  id : String
  name : String
  allowedOrigins : List String
  deriving DecidableEq, Repr

/-- HTTP methods used by the client. -/
inductive Method where
  | get | post | put | patch | delete
  deriving DecidableEq, Repr

/-- The body of an outgoing request, kept structurally (the Go code JSON- or
multipart-encodes these). -/
inductive ReqBody where
  | empty
  | authBody (clientId secret : String)
  | jsonCreateApp (r : CreateApplicationRequest)
  | jsonCreateSource (r : CreateSourceRequest)
  | jsonUpsertTools (r : UpsertToolsRequest)
  | multipart (appId fieldName filename : String) (content : List Nat)
  deriving DecidableEq, Repr

/-- An outgoing HTTP request: method, full URL, body. -/
structure Request where
  method : Method
  url : String
  body : ReqBody
  deriving DecidableEq, Repr

/-- The JSON value a response body decodes to (`malformed` when
`json.Decode` would fail). -/
inductive Decoded where
  | malformed
  | auth (a : AuthResponse)
  | app (a : Application)
  | apps (l : List Application)
  | source (s : Source)
  | sources (l : List Source)
  | tools (l : List InternalTool)
  | toolItems (l : List InternalTool)
  | vendor (v : VendorConfig)
  deriving DecidableEq, Repr

/-- An HTTP response: status code, raw body text (what `io.ReadAll` returns)
and its decoded form. -/
structure Response where
  status : Nat
  rawBody : String
  decoded : Decoded
  deriving DecidableEq, Repr

def decodeAuth : Decoded → Option AuthResponse
  | .auth a => some a
  | _ => none

def decodeApp : Decoded → Option Application
  | .app a => some a
  | _ => none

def decodeApps : Decoded → Option (List Application)
  | .apps l => some l
  | _ => none

def decodeSource : Decoded → Option Source
  | .source s => some s
  | _ => none

def decodeSources : Decoded → Option (List Source)
  | .sources l => some l
  | _ => none

def decodeTools : Decoded → Option (List InternalTool)
  | .tools l => some l
  | _ => none

def decodeToolItems : Decoded → Option (List InternalTool)
  | .toolItems l => some l
  | _ => none

def decodeVendor : Decoded → Option VendorConfig
  | .vendor v => some v
  | _ => none

/-- Mirror of the `Client` struct: configuration plus the mutex-guarded
token cache and the resolved application fields. -/
structure Client where
  baseURL : String
  clientID : String
  secret : String
  accessToken : String
  tokenExpiry : Int
  applicationID : String
  applicationName : String
  deriving DecidableEq, Repr

/-- Mirror of `NewClient`: fresh client with empty token cache. -/
def NewClient (baseURL clientID secret : String) : Client :=
  { baseURL := baseURL, clientID := clientID, secret := secret,
    accessToken := "", tokenExpiry := 0,
    applicationID := "", applicationName := "" }

deriving instance DecidableEq for Except

/-- Execution state: the client, the pending transport outcomes (one per
HTTP call, in order; `.error e` is a transport failure of `httpClient.Do`),
and the trace of requests issued so far. -/
structure St where
  cs : Client
  script : List (Except String Response)
  sent : List Request
  deriving DecidableEq, Repr

/-- One `httpClient.Do` call: the request is recorded in the trace and the
next scripted outcome is consumed.  An exhausted script behaves as a
transport failure. -/
def httpDo (st : St) (req : Request) : Except String Response × St :=
  match st.script with
  | [] => (.error "transport failure", { st with sent := st.sent ++ [req] })
  | r :: rest => (r, { st with script := rest, sent := st.sent ++ [req] })

/-- The Go `fmt.Errorf("... with status %d: %s", code, body)` shape shared
by all error paths. -/
def statusBodyMsg (pre : String) (status : Nat) (body : String) : String :=
  pre ++ toString status ++ ": " ++ body

/-- The request `Authenticate` issues: POST {baseURL}/auth/vendor with a
JSON body of clientId and secret. -/
def authRequest (c : Client) : Request :=
  { method := .post, url := c.baseURL ++ "/auth/vendor",
    body := .authBody c.clientID c.secret }

/-- Mirror of `Client.Authenticate`: POST /auth/vendor, require status 200,
decode the token and store it with expiry `now + (expiresIn - 60)`. -/
def Authenticate (now : Int) (st : St) : Except String Unit × St :=
  match httpDo st (authRequest st.cs) with
  | (.error e, st') => (.error ("failed to execute auth request: " ++ e), st')
  | (.ok resp, st') =>
    if resp.status ≠ 200 then
      (.error (statusBodyMsg "authentication failed with status " resp.status resp.rawBody), st')
    else
      match decodeAuth resp.decoded with
      | none => (.error "failed to decode auth response", st')
      | some a =>
        (.ok (), { st' with cs := { st'.cs with
            accessToken := a.token,
            tokenExpiry := now + (a.expiresIn - 60) } })

/-- Mirror of `Client.GetAccessToken`: return the cached token when it is
non-empty and unexpired, otherwise authenticate and return the stored
token. -/
def GetAccessToken (now : Int) (st : St) : Except String String × St :=
  if st.cs.accessToken ≠ "" ∧ now < st.cs.tokenExpiry then
    (.ok st.cs.accessToken, st)
  else
    match Authenticate now st with
    | (.error e, st') => (.error e, st')
    | (.ok _, st') => (.ok st'.cs.accessToken, st')

/-- The request `DoRequest` issues for a given client, method, path and
body: the URL is {baseURL}{path}. -/
def apiRequest (c : Client) (method : Method) (path : String) (body : ReqBody) : Request :=
  { method := method, url := c.baseURL ++ path, body := body }

/-- Mirror of `Client.DoRequest`: obtain a token, then issue the request to
{baseURL}{path}.  Transport errors are returned unwrapped, as in Go. -/
def DoRequest (now : Int) (method : Method) (path : String) (body : ReqBody)
    (st : St) : Except String Response × St :=
  match GetAccessToken now st with
  | (.error e, st') => (.error ("failed to get access token: " ++ e), st')
  | (.ok _, st') =>
    httpDo st' (apiRequest st'.cs method path body)

/-- Mirror of `Client.GetApplications`. -/
def GetApplications (now : Int) (st : St) : Except String (List Application) × St :=
  match DoRequest now .get "/applications/resources/applications/v1" .empty st with
  | (.error e, st') => (.error ("failed to get applications: " ++ e), st')
  | (.ok resp, st') =>
    if resp.status ≠ 200 then
      (.error (statusBodyMsg "failed to get applications with status " resp.status resp.rawBody), st')
    else
      match decodeApps resp.decoded with
      | none => (.error "failed to decode applications response", st')
      | some apps => (.ok apps, st')

/-- Mirror of `Client.FindApplicationByName`: linear scan for the first
application with the requested name (`nil, nil` when absent). -/
def FindApplicationByName (now : Int) (name : String) (st : St) :
    Except String (Option Application) × St :=
  match GetApplications now st with
  | (.error e, st') => (.error e, st')
  | (.ok apps, st') => (.ok (apps.find? (fun a => a.name == name)), st')

/-- Mirror of `Client.CreateApplication`: POST, accept only 201. -/
def CreateApplication (now : Int) (req : CreateApplicationRequest) (st : St) :
    Except String Application × St :=
  match DoRequest now .post "/applications/resources/applications/v1" (.jsonCreateApp req) st with
  | (.error e, st') => (.error ("failed to create application: " ++ e), st')
  | (.ok resp, st') =>
    if resp.status ≠ 201 then
      (.error (statusBodyMsg "failed to create application with status " resp.status resp.rawBody), st')
    else
      match decodeApp resp.decoded with
      | none => (.error "failed to decode application response", st')
      | some app => (.ok app, st')

/-- Store the resolved application's ID and name on the client
(`c.ApplicationID` / `c.ApplicationName`). -/
def setAppFields (st : St) (app : Application) : St :=
  { st with cs := { st.cs with applicationID := app.id, applicationName := app.name } }

/-- Mirror of `Client.FindOrCreateApplication`: find by name; when absent,
create with Type "web"; record ID and name in both branches. -/
def FindOrCreateApplication (now : Int) (name appURL loginURL : String) (st : St) :
    Except String Application × St :=
  match FindApplicationByName now name st with
  | (.error e, st') => (.error e, st')
  | (.ok (some app), st') => (.ok app, setAppFields st' app)
  | (.ok none, st') =>
    match CreateApplication now
        { name := name, appURL := appURL, loginURL := loginURL, type := "web" } st' with
    | (.error e, st'') => (.error e, st'')
    | (.ok newApp, st'') => (.ok newApp, setAppFields st'' newApp)

/-- Mirror of `Client.GetSources`. -/
def GetSources (now : Int) (appID : String) (st : St) :
    Except String (List Source) × St :=
  match DoRequest now .get
      ("/app-integrations/resources/app-mcp-configuration-sources/v1?appId=" ++ appID)
      .empty st with
  | (.error e, st') => (.error ("failed to get sources: " ++ e), st')
  | (.ok resp, st') =>
    if resp.status ≠ 200 then
      (.error (statusBodyMsg "failed to get sources with status " resp.status resp.rawBody), st')
    else
      match decodeSources resp.decoded with
      | none => (.error "failed to decode sources response", st')
      | some sources => (.ok sources, st')

/-- Mirror of `Client.FindSourceByName`. -/
def FindSourceByName (now : Int) (appID name : String) (st : St) :
    Except String (Option Source) × St :=
  match GetSources now appID st with
  | (.error e, st') => (.error e, st')
  | (.ok sources, st') => (.ok (sources.find? (fun s => s.name == name)), st')

/-- Mirror of `Client.CreateSource`: POST, accept 200 or 201. -/
def CreateSource (now : Int) (req : CreateSourceRequest) (st : St) :
    Except String Source × St :=
  match DoRequest now .post "/app-integrations/resources/app-mcp-configuration-sources/v1"
      (.jsonCreateSource req) st with
  | (.error e, st') => (.error ("failed to create source: " ++ e), st')
  | (.ok resp, st') =>
    if resp.status ≠ 200 ∧ resp.status ≠ 201 then
      (.error (statusBodyMsg "failed to create source with status " resp.status resp.rawBody), st')
    else
      match decodeSource resp.decoded with
      | none => (.error "failed to decode source response", st')
      | some src => (.ok src, st')

/-- Mirror of `Client.FindOrCreateSource`: find by name; when absent, create
with Enabled true. -/
def FindOrCreateSource (now : Int) (appID name sourceType sourceURL : String)
    (apiTimeout : Int) (st : St) : Except String Source × St :=
  match FindSourceByName now appID name st with
  | (.error e, st') => (.error e, st')
  | (.ok (some src), st') => (.ok src, st')
  | (.ok none, st') =>
    match CreateSource now
        { appID := appID, name := name, type := sourceType, sourceURL := sourceURL,
          apiTimeout := apiTimeout, enabled := true } st' with
    | (.error e, st'') => (.error e, st'')
    | (.ok newSource, st'') => (.ok newSource, st'')

/-- Mirror of `Client.importSchema`: obtain a token, POST a multipart form
with an appId field and one file part named `fieldName`, accept 200 and
decode the imported tools. -/
def importSchema (now : Int) (appID : String) (content : List Nat)
    (filename fieldName endpoint : String) (st : St) :
    Except String (List InternalTool) × St :=
  match GetAccessToken now st with
  | (.error e, st') => (.error ("failed to get access token: " ++ e), st')
  | (.ok _, st') =>
    let req : Request :=
      { method := .post, url := st'.cs.baseURL ++ endpoint,
        body := .multipart appID fieldName filename content }
    match httpDo st' req with
    | (.error e, st'') => (.error ("failed to execute import request: " ++ e), st'')
    | (.ok resp, st'') =>
      if resp.status ≠ 200 then
        (.error (statusBodyMsg "failed to import schema with status " resp.status resp.rawBody), st'')
      else
        match decodeTools resp.decoded with
        | none => (.error "failed to decode import response", st'')
        | some tools => (.ok tools, st'')

/-- Mirror of `Client.ImportOpenAPISchema`. -/
def ImportOpenAPISchema (now : Int) (appID : String) (content : List Nat)
    (filename : String) (st : St) : Except String (List InternalTool) × St :=
  importSchema now appID content filename "openapi"
    "/app-integrations/resources/internal-tools/v1/openapi/import" st

/-- Mirror of `Client.ImportGraphQLSchema`. -/
def ImportGraphQLSchema (now : Int) (appID : String) (content : List Nat)
    (filename : String) (st : St) : Except String (List InternalTool) × St :=
  importSchema now appID content filename "graphql"
    "/app-integrations/resources/internal-tools/v1/graphql/import" st

/-- Mirror of `Client.UpsertTools`: POST the upsert request, accept 200. -/
def UpsertTools (now : Int) (req : UpsertToolsRequest) (st : St) :
    Except String (List InternalTool) × St :=
  match DoRequest now .post "/app-integrations/resources/internal-tools/v1/upsert"
      (.jsonUpsertTools req) st with
  | (.error e, st') => (.error ("failed to upsert tools: " ++ e), st')
  | (.ok resp, st') =>
    if resp.status ≠ 200 then
      (.error (statusBodyMsg "failed to upsert tools with status " resp.status resp.rawBody), st')
    else
      match decodeTools resp.decoded with
      | none => (.error "failed to decode upsert response", st')
      | some tools => (.ok tools, st')

/-- Mirror of `Client.ImportAndUpsertSchema`: dispatch on source type
(REST → OpenAPI import, GRAPHQL → GraphQL import, otherwise an error before
any request), skip the upsert when no tools were imported, else stamp
SourceID on every tool and upsert. -/
def ImportAndUpsertSchema (now : Int) (appID sourceID sourceType : String)
    (content : List Nat) (filename : String) (st : St) : Except String Unit × St :=
  let imported : Option (Except String (List InternalTool) × St) :=
    if sourceType = "REST" then some (ImportOpenAPISchema now appID content filename st)
    else if sourceType = "GRAPHQL" then some (ImportGraphQLSchema now appID content filename st)
    else none
  match imported with
  | none => (.error ("schema import not supported for source type: " ++ sourceType), st)
  | some (.error e, st') => (.error ("failed to import schema: " ++ e), st')
  | some (.ok tools, st') =>
    if tools.length = 0 then (.ok (), st')
    else
      match UpsertTools now
          { appID := appID, toolType := sourceType,
            tools := tools.map (fun t => { t with sourceID := sourceID }) } st' with
      | (.error e, st'') => (.error ("failed to upsert tools: " ++ e), st'')
      | (.ok _, st'') => (.ok (), st'')

/-- Mirror of `Client.DeleteTool`: DELETE, accept 200 or 204. -/
def DeleteTool (now : Int) (appID toolID : String) (st : St) :
    Except String Unit × St :=
  match DoRequest now .delete
      ("/app-integrations/resources/internal-tools/v1/" ++ toolID ++ "?appId=" ++ appID)
      .empty st with
  | (.error e, st') => (.error ("failed to delete tool: " ++ e), st')
  | (.ok resp, st') =>
    if resp.status ≠ 200 ∧ resp.status ≠ 204 then
      (.error (statusBodyMsg "failed to delete tool with status " resp.status resp.rawBody), st')
    else (.ok (), st')

/-- The per-tool deletion loop of `DeleteToolsBySource`: every `DeleteTool`
failure is only logged, never propagated. -/
def deleteEach (now : Int) (appID : String) : List InternalTool → St → St
  | [], st => st
  | t :: ts, st => deleteEach now appID ts (DeleteTool now appID t.id st).2

/-- Mirror of `Client.DeleteToolsBySource`: list the tools for the source
(errors here are returned), then best-effort delete each one and return
nil. -/
def DeleteToolsBySource (now : Int) (appID sourceID : String) (st : St) :
    Except String Unit × St :=
  match DoRequest now .get
      ("/app-integrations/resources/internal-tools/v1?appId=" ++ appID ++ "&sourceId=" ++ sourceID)
      .empty st with
  | (.error e, st') => (.error ("failed to get tools: " ++ e), st')
  | (.ok resp, st') =>
    if resp.status ≠ 200 then
      (.error (statusBodyMsg "failed to get tools with status " resp.status resp.rawBody), st')
    else
      match decodeToolItems resp.decoded with
      | none => (.error "failed to decode tools response", st')
      | some items => (.ok (), deleteEach now appID items st')

/-- Mirror of `Client.GetVendorConfig`. -/
def GetVendorConfig (now : Int) (st : St) : Except String VendorConfig × St :=
  match DoRequest now .get "/vendors" .empty st with
  | (.error e, st') => (.error ("failed to get vendor config: " ++ e), st')
  | (.ok resp, st') =>
    if resp.status ≠ 200 then
      (.error (statusBodyMsg "failed to get vendor config with status " resp.status resp.rawBody), st')
    else
      match decodeVendor resp.decoded with
      | none => (.error "failed to decode vendor config response", st')
      | some v => (.ok v, st')

/-- Severity of a Terraform diagnostic. -/
inductive Severity where
  | warning | error
  deriving DecidableEq, Repr

/-- A Terraform diagnostic (severity, summary, detail). -/
structure Diagnostic where
  severity : Severity
  summary : String
  detail : String
  deriving DecidableEq, Repr

/-- Mirror of `ToolsImportResource.Delete`: best-effort cleanup — a failure
of `DeleteToolsBySource` becomes a "Cleanup Warning" warning diagnostic,
never an error. -/
def ToolsImportDelete (now : Int) (appID sourceID : String) (st : St) :
    List Diagnostic × St :=
  match DeleteToolsBySource now appID sourceID st with
  | (.error e, st') =>
    ([{ severity := .warning, summary := "Cleanup Warning",
        detail := "Unable to delete tools: " ++ e }], st')
  | (.ok _, st') => ([], st')

/-- Mirror of the `regionURLs` map in provider.go (Go map lookup rendered
as an equality chain). -/
def regionURLs (r : String) : Option String :=
  if r = "stg" then some "https://api.stg.frontegg.com"
  else if r = "eu" then some "https://api.frontegg.com"
  else if r = "us" then some "https://api.us.frontegg.com"
  else if r = "au" then some "https://api.au.frontegg.com"
  else if r = "ca" then some "https://api.ca.frontegg.com"
  else if r = "uk" then some "https://api.uk.frontegg.com"
  else none

/-- Mirror of `validRegions` in provider.go. -/
def validRegions : List String := ["stg", "eu", "us", "au", "ca", "uk"]

/-- The base-URL resolution of `FronteggProvider.Configure`: environment
values (empty string when unset) are overridden by non-null configuration
values; a non-empty base URL wins over the region; an empty region defaults
to "eu"; an unmapped region yields the Invalid Frontegg Region diagnostic
and no client. -/
def effConfig (env : String) : Option String → String
  | some v => v
  | none => env

def resolveBaseURL (envRegion envBaseURL : String)
    (cfgRegion cfgBaseURL : Option String) : Except Diagnostic String :=
  let region := effConfig envRegion cfgRegion
  let baseURL := effConfig envBaseURL cfgBaseURL
  if baseURL ≠ "" then .ok baseURL
  else
    let region := if region = "" then "eu" else region
    match regionURLs region with
    | some url => .ok url
    | none =>
      .error { severity := .error, summary := "Invalid Frontegg Region",
               detail := "The region " ++ region ++ " is not valid. Valid regions are: ["
                 ++ String.intercalate " " validRegions ++ "]" }

/-!
Interleaving model for two concurrent `GetAccessToken` callers.

`GetAccessToken` reads the token and expiry under the read lock, checks them
against `time.Now()` on its own stack, and only then (without holding any
lock) calls `Authenticate`, which issues its POST and installs the result
under the write lock.  The check and the refresh are therefore separate
atomic steps, which is exactly what the phase machine below captures: a
caller in `start` atomically performs the locked read plus the local check,
and a caller in `willAuth` atomically performs its authentication round trip
plus the locked write.
-/

/-- Shared memory of the interleaving model: the client record (whose
token/expiry fields are the mutex-guarded data) and the global list of
issued requests, tagged by caller. -/
structure Shared where
  cs : Client
  trace : List (Nat × Request)
  deriving DecidableEq, Repr

/-- Control state of one `GetAccessToken` caller. -/
inductive CPhase where
  | start | willAuth | done
  deriving DecidableEq, Repr

/-- One atomic step of a caller: in `start`, read token and expiry under the
read lock and decide; in `willAuth`, issue POST /auth/vendor and install the
received token under the write lock. -/
def stepCaller (now : Int) (me : Nat) (myResp : AuthResponse) (p : CPhase)
    (sh : Shared) : CPhase × Shared :=
  match p with
  | .start =>
    if sh.cs.accessToken ≠ "" ∧ now < sh.cs.tokenExpiry then (.done, sh)
    else (.willAuth, sh)
  | .willAuth =>
    let cs' := { sh.cs with accessToken := myResp.token, tokenExpiry := now + (myResp.expiresIn - 60) }
    (.done, { cs := cs', trace := sh.trace ++ [(me, authRequest sh.cs)] })
  | .done => (.done, sh)

/-- Two callers over the shared client; `r1`/`r2` are the auth responses
their respective POSTs would receive. -/
structure World where
  sh : Shared
  p1 : CPhase
  p2 : CPhase
  r1 : AuthResponse
  r2 : AuthResponse
  deriving DecidableEq, Repr

/-- Scheduler step: `true` runs caller 1, `false` runs caller 2. -/
def step (now : Int) (w : World) (choice : Bool) : World :=
  if choice then
    let ps := stepCaller now 1 w.r1 w.p1 w.sh
    { w with p1 := ps.1, sh := ps.2 }
  else
    let ps := stepCaller now 2 w.r2 w.p2 w.sh
    { w with p2 := ps.1, sh := ps.2 }

/-- Run a schedule of interleaved caller steps. -/
def run2 (now : Int) (sched : List Bool) (w : World) : World :=
  sched.foldl (step now) w

/-! ### Helper lemmas -/

/-- The `Authenticate` call never touches the connection configuration and
always issues exactly one request: the auth POST. -/
theorem Authenticate_effects (now : Int) (st : St) :
    (Authenticate now st).2.cs.baseURL = st.cs.baseURL ∧
    (Authenticate now st).2.cs.clientID = st.cs.clientID ∧
    (Authenticate now st).2.cs.secret = st.cs.secret ∧
    (Authenticate now st).2.sent = st.sent ++ [authRequest st.cs] := by
  rcases st with ⟨cs, script, sent⟩
  cases script with
  | nil => simp [Authenticate, httpDo]
  | cons r rest =>
    cases r with
    | error e => simp [Authenticate, httpDo]
    | ok resp =>
      by_cases hs : resp.status = 200
      · cases hd : decodeAuth resp.decoded with
        | none => simp [Authenticate, httpDo, hs, hd]
        | some a => simp [Authenticate, httpDo, hs, hd]
      · simp [Authenticate, httpDo, hs]

/-- With a cached, unexpired token, `GetAccessToken` is a pure read. -/
theorem GetAccessToken_of_valid (now : Int) (st : St)
    (h : st.cs.accessToken ≠ "" ∧ now < st.cs.tokenExpiry) :
    GetAccessToken now st = (Except.ok st.cs.accessToken, st) := by
  simp [GetAccessToken, h]

/-- With a cached, unexpired token, `DoRequest` is exactly one HTTP call. -/
theorem DoRequest_of_valid (now : Int) (method : Method) (path : String)
    (body : ReqBody) (st : St)
    (h : st.cs.accessToken ≠ "" ∧ now < st.cs.tokenExpiry) :
    DoRequest now method path body st = httpDo st (apiRequest st.cs method path body) := by
  simp [DoRequest, GetAccessToken_of_valid now st h]

/-- Without a valid cached token, `GetAccessToken` issues exactly one auth
request. -/
theorem GetAccessToken_sent_of_invalid (now : Int) (st : St)
    (h : ¬(st.cs.accessToken ≠ "" ∧ now < st.cs.tokenExpiry)) :
    (GetAccessToken now st).2.sent = st.sent ++ [authRequest st.cs] := by
  have heff := (Authenticate_effects now st).2.2.2
  unfold GetAccessToken
  simp only [if_neg h]
  rcases hA : Authenticate now st with ⟨res, st'⟩
  rw [hA] at heff
  cases res <;> simpa using heff

/-! ### Claims -/

/-- Claim C1: on every `GetAccessToken` call, a non-empty cached token whose
expiry lies in the future is returned as-is with no HTTP request issued;
otherwise the client re-authenticates by sending POST {baseURL}/auth/vendor
with clientId and secret, and on success returns the newly stored token. -/
theorem getAccessToken_cached_or_reauthenticates (st : St) (now : Int) :
    (st.cs.accessToken ≠ "" ∧ now < st.cs.tokenExpiry →
      GetAccessToken now st = (Except.ok st.cs.accessToken, st)) ∧
    (¬(st.cs.accessToken ≠ "" ∧ now < st.cs.tokenExpiry) →
      (GetAccessToken now st).2.sent = st.sent ++ [authRequest st.cs] ∧
      ∀ resp rest a, st.script = Except.ok resp :: rest → resp.status = 200 →
        decodeAuth resp.decoded = some a →
        GetAccessToken now st =
          (Except.ok a.token,
            { cs := { st.cs with accessToken := a.token, tokenExpiry := now + (a.expiresIn - 60) },
              script := rest, sent := st.sent ++ [authRequest st.cs] })) := by
  constructor
  · intro h
    exact GetAccessToken_of_valid now st h
  · intro h
    constructor
    · exact GetAccessToken_sent_of_invalid now st h
    · intro resp rest a hscript hstatus hdecode
      rcases st with ⟨cs, script, sent⟩
      simp only at hscript
      subst hscript
      simp only at h
      simp [GetAccessToken, h, Authenticate, httpDo, authRequest, hstatus, hdecode]

/-- Witness for C1 at a concrete expired-cache state. -/
theorem getAccessToken_cached_or_reauthenticates_witness :
    GetAccessToken 0
      ⟨NewClient "https://api.frontegg.com" "cid" "sec",
        [Except.ok ⟨200, "", Decoded.auth ⟨"tok", 1800⟩⟩], []⟩ =
    (Except.ok "tok",
      ⟨{ NewClient "https://api.frontegg.com" "cid" "sec" with
          accessToken := "tok", tokenExpiry := 0 + (1800 - 60) },
        [], [authRequest (NewClient "https://api.frontegg.com" "cid" "sec")]⟩) := by
  have h := ((getAccessToken_cached_or_reauthenticates
      ⟨NewClient "https://api.frontegg.com" "cid" "sec",
        [Except.ok ⟨200, "", Decoded.auth ⟨"tok", 1800⟩⟩], []⟩ 0).2
    (by decide)).2 ⟨200, "", Decoded.auth ⟨"tok", 1800⟩⟩ [] ⟨"tok", 1800⟩ rfl rfl rfl
  simpa using h

/-- Claim C5: every `DoRequest`-based client call performs exactly one
attempt of its own HTTP request, plus at most one authentication request:
its trace grows by the main request alone, by the auth request alone (when
authentication failed, the error returning immediately), or by the auth
request followed by the main request — never by a retry. -/
theorem doRequest_single_attempt (now : Int) (method : Method) (path : String)
    (body : ReqBody) (st : St) :
    (DoRequest now method path body st).2.sent
        = st.sent ++ [apiRequest st.cs method path body] ∨
    (DoRequest now method path body st).2.sent
        = st.sent ++ [authRequest st.cs] ∨
    (DoRequest now method path body st).2.sent
        = st.sent ++ [authRequest st.cs, apiRequest st.cs method path body] := by
  by_cases h : st.cs.accessToken ≠ "" ∧ now < st.cs.tokenExpiry
  · left
    rw [DoRequest_of_valid now method path body st h]
    cases hs : st.script <;> simp [httpDo, hs]
  · have heff := Authenticate_effects now st
    unfold DoRequest GetAccessToken
    simp only [if_neg h]
    rcases hA : Authenticate now st with ⟨res, st'⟩
    rw [hA] at heff
    cases res with
    | error e => right; left; simpa using heff.2.2.2
    | ok u =>
      right; right
      have hb : st'.cs.baseURL = st.cs.baseURL := heff.1
      have hsent : st'.sent = st.sent ++ [authRequest st.cs] := heff.2.2.2
      cases hs : st'.script <;>
        simp [httpDo, hs, apiRequest, hb, hsent, List.append_assoc]

/-- Claim C7: a successful `Authenticate` whose response carries
expiresIn = n stores expiry now + (n - 60); when n ≤ 60 that expiry is not
in the future, so every later `GetAccessToken` re-authenticates (issues a
fresh auth POST) instead of reusing the just-obtained token. -/
theorem authenticate_expiry_buffer (st : St) (now : Int) (resp : Response)
    (rest : List (Except String Response)) (a : AuthResponse)
    (hscript : st.script = Except.ok resp :: rest) (hstatus : resp.status = 200)
    (hdecode : decodeAuth resp.decoded = some a) :
    (Authenticate now st).2.cs.tokenExpiry = now + (a.expiresIn - 60) ∧
    (a.expiresIn ≤ 60 → ∀ nowLater, now ≤ nowLater →
      ¬(nowLater < (Authenticate now st).2.cs.tokenExpiry) ∧
      (GetAccessToken nowLater (Authenticate now st).2).2.sent
        = (Authenticate now st).2.sent ++ [authRequest (Authenticate now st).2.cs]) := by
  have hexp : (Authenticate now st).2.cs.tokenExpiry = now + (a.expiresIn - 60) := by
    rcases st with ⟨cs, script, sent⟩
    simp only at hscript
    subst hscript
    simp [Authenticate, httpDo, hstatus, hdecode]
  refine ⟨hexp, fun hle nowLater hnn => ?_⟩
  have hnotlt : ¬(nowLater < (Authenticate now st).2.cs.tokenExpiry) := by
    rw [hexp]; omega
  refine ⟨hnotlt, ?_⟩
  exact GetAccessToken_sent_of_invalid nowLater (Authenticate now st).2
    (fun hc => hnotlt hc.2)

/-- Witness for C7: expiresIn = 60 yields an expiry equal to `now`, and the
next `GetAccessToken` call sends another auth POST. -/
theorem authenticate_expiry_buffer_witness :
    (Authenticate 5
        ⟨NewClient "https://api.frontegg.com" "cid" "sec",
          [Except.ok ⟨200, "", Decoded.auth ⟨"tok", 60⟩⟩], []⟩).2.cs.tokenExpiry
      = 5 + (60 - 60) ∧
    ¬(5 < (Authenticate 5
        ⟨NewClient "https://api.frontegg.com" "cid" "sec",
          [Except.ok ⟨200, "", Decoded.auth ⟨"tok", 60⟩⟩], []⟩).2.cs.tokenExpiry) := by
  have h := authenticate_expiry_buffer
    ⟨NewClient "https://api.frontegg.com" "cid" "sec",
      [Except.ok ⟨200, "", Decoded.auth ⟨"tok", 60⟩⟩], []⟩ 5
    ⟨200, "", Decoded.auth ⟨"tok", 60⟩⟩ [] ⟨"tok", 60⟩ rfl rfl rfl
  exact ⟨h.1, (h.2 (by decide) 5 (by decide)).1⟩

/-- Claim C2: find-or-create returns a listed item whose Name matches
without issuing a create request; only when no item matches does it POST a
create (for applications with Type "web") and return the result; and
`FindOrCreateApplication` stores the resulting ID and Name on the client in
both branches. -/
theorem findOrCreate_reconciliation :
    (∀ (now : Int) (name appURL loginURL : String) (st st₁ : St)
        (apps : List Application) (app : Application),
      GetApplications now st = (Except.ok apps, st₁) →
      apps.find? (fun a => a.name == name) = some app →
      FindOrCreateApplication now name appURL loginURL st
        = (Except.ok app, setAppFields st₁ app)) ∧
    (∀ (now : Int) (name appURL loginURL : String) (st st₁ : St)
        (apps : List Application) (cresp : Response)
        (rest : List (Except String Response)) (napp : Application),
      GetApplications now st = (Except.ok apps, st₁) →
      apps.find? (fun a => a.name == name) = none →
      st₁.cs.accessToken ≠ "" ∧ now < st₁.cs.tokenExpiry →
      st₁.script = Except.ok cresp :: rest →
      cresp.status = 201 →
      decodeApp cresp.decoded = some napp →
      FindOrCreateApplication now name appURL loginURL st
        = (Except.ok napp, setAppFields
            { cs := st₁.cs, script := rest,
              sent := st₁.sent ++ [apiRequest st₁.cs .post
                "/applications/resources/applications/v1"
                (.jsonCreateApp ⟨name, appURL, loginURL, "web"⟩)] } napp)) ∧
    (∀ (now apiTimeout : Int) (appID name sourceType sourceURL : String)
        (st st₁ : St) (sources : List Source) (src : Source),
      GetSources now appID st = (Except.ok sources, st₁) →
      sources.find? (fun s => s.name == name) = some src →
      FindOrCreateSource now appID name sourceType sourceURL apiTimeout st
        = (Except.ok src, st₁)) ∧
    (∀ (now apiTimeout : Int) (appID name sourceType sourceURL : String)
        (st st₁ : St) (sources : List Source) (cresp : Response)
        (rest : List (Except String Response)) (nsrc : Source),
      GetSources now appID st = (Except.ok sources, st₁) →
      sources.find? (fun s => s.name == name) = none →
      st₁.cs.accessToken ≠ "" ∧ now < st₁.cs.tokenExpiry →
      st₁.script = Except.ok cresp :: rest →
      cresp.status = 200 ∨ cresp.status = 201 →
      decodeSource cresp.decoded = some nsrc →
      FindOrCreateSource now appID name sourceType sourceURL apiTimeout st
        = (Except.ok nsrc,
            { cs := st₁.cs, script := rest,
              sent := st₁.sent ++ [apiRequest st₁.cs .post
                "/app-integrations/resources/app-mcp-configuration-sources/v1"
                (.jsonCreateSource ⟨appID, name, sourceType, sourceURL, apiTimeout, true⟩)] })) := by
  refine ⟨?_, ?_, ?_, ?_⟩
  · intro now name appURL loginURL st st₁ apps app hGet hfind
    unfold FindOrCreateApplication FindApplicationByName
    rw [hGet]
    simp [hfind]
  · intro now name appURL loginURL st st₁ apps cresp rest napp hGet hfind hvalid hscript hstatus hdecode
    unfold FindOrCreateApplication FindApplicationByName
    rw [hGet]
    simp only [hfind]
    unfold CreateApplication
    rw [DoRequest_of_valid now .post _ _ st₁ hvalid]
    rcases st₁ with ⟨cs₁, script₁, sent₁⟩
    simp only at hscript
    subst hscript
    simp [httpDo, hstatus, hdecode, apiRequest, setAppFields]
  · intro now apiTimeout appID name sourceType sourceURL st st₁ sources src hGet hfind
    unfold FindOrCreateSource FindSourceByName
    rw [hGet]
    simp [hfind]
  · intro now apiTimeout appID name sourceType sourceURL st st₁ sources cresp rest nsrc
      hGet hfind hvalid hscript hstatus hdecode
    unfold FindOrCreateSource FindSourceByName
    rw [hGet]
    simp only [hfind]
    unfold CreateSource
    rw [DoRequest_of_valid now .post _ _ st₁ hvalid]
    rcases st₁ with ⟨cs₁, script₁, sent₁⟩
    simp only at hscript
    subst hscript
    have hstat : ¬(cresp.status ≠ 200 ∧ cresp.status ≠ 201) := by
      rcases hstatus with h | h <;> simp [h]
    simp [httpDo, hstat, hdecode, apiRequest]

/-- Witness for C2: an empty application list leads to a create request with
Type "web" whose result is returned and recorded on the client. -/
theorem findOrCreate_reconciliation_witness :
    FindOrCreateApplication 0 "app1" "https://a" "https://l"
      ⟨{ NewClient "https://api.frontegg.com" "cid" "sec" with accessToken := "t", tokenExpiry := 9 },
        [Except.ok ⟨200, "", Decoded.apps []⟩,
         Except.ok ⟨201, "",
           Decoded.app ⟨"id1", "v", "app1", "https://a", "https://l", "", "", false, true,
             "web", "", "", "", ""⟩⟩], []⟩
      = (Except.ok
          ⟨"id1", "v", "app1", "https://a", "https://l", "", "", false, true,
            "web", "", "", "", ""⟩,
         setAppFields
          { cs := { NewClient "https://api.frontegg.com" "cid" "sec" with
                      accessToken := "t", tokenExpiry := 9 },
            script := [],
            sent := [apiRequest
                { NewClient "https://api.frontegg.com" "cid" "sec" with
                    accessToken := "t", tokenExpiry := 9 } .get
                "/applications/resources/applications/v1" .empty,
              apiRequest
                { NewClient "https://api.frontegg.com" "cid" "sec" with
                    accessToken := "t", tokenExpiry := 9 } .post
                "/applications/resources/applications/v1"
                (.jsonCreateApp ⟨"app1", "https://a", "https://l", "web"⟩)] }
          ⟨"id1", "v", "app1", "https://a", "https://l", "", "", false, true,
            "web", "", "", "", ""⟩) := by
  have h := findOrCreate_reconciliation.2.1 0 "app1" "https://a" "https://l"
    ⟨{ NewClient "https://api.frontegg.com" "cid" "sec" with accessToken := "t", tokenExpiry := 9 },
      [Except.ok ⟨200, "", Decoded.apps []⟩,
       Except.ok ⟨201, "",
         Decoded.app ⟨"id1", "v", "app1", "https://a", "https://l", "", "", false, true,
           "web", "", "", "", ""⟩⟩], []⟩
    ⟨{ NewClient "https://api.frontegg.com" "cid" "sec" with accessToken := "t", tokenExpiry := 9 },
      [Except.ok ⟨201, "",
         Decoded.app ⟨"id1", "v", "app1", "https://a", "https://l", "", "", false, true,
           "web", "", "", "", ""⟩⟩],
      [apiRequest
        { NewClient "https://api.frontegg.com" "cid" "sec" with
            accessToken := "t", tokenExpiry := 9 } .get
        "/applications/resources/applications/v1" .empty]⟩
    [] ⟨201, "",
        Decoded.app ⟨"id1", "v", "app1", "https://a", "https://l", "", "", false, true,
          "web", "", "", "", ""⟩⟩ []
    ⟨"id1", "v", "app1", "https://a", "https://l", "", "", false, true,
      "web", "", "", "", ""⟩
    (by decide) rfl (by decide) rfl rfl rfl
  simpa using h

/-- Claim C3: when the endpoint answers with a status outside the accepted
set, the wrapped operations return no value and an error whose message
carries both the numeric status code and the raw response body
(representatives: `Authenticate`, `GetApplications`, `GetVendorConfig`). -/
theorem crud_error_contains_status_and_body (st : St) (now : Int)
    (resp : Response) (rest : List (Except String Response))
    (hscript : st.script = Except.ok resp :: rest) (hstatus : resp.status ≠ 200) :
    (Authenticate now st).1
        = Except.error (statusBodyMsg "authentication failed with status "
            resp.status resp.rawBody) ∧
    (st.cs.accessToken ≠ "" ∧ now < st.cs.tokenExpiry →
      (GetApplications now st).1
          = Except.error (statusBodyMsg "failed to get applications with status "
              resp.status resp.rawBody) ∧
      (GetVendorConfig now st).1
          = Except.error (statusBodyMsg "failed to get vendor config with status "
              resp.status resp.rawBody)) ∧
    (∀ pre, (∃ s t, statusBodyMsg pre resp.status resp.rawBody
                = s ++ toString resp.status ++ t) ∧
            (∃ u, statusBodyMsg pre resp.status resp.rawBody = u ++ resp.rawBody)) := by
  refine ⟨?_, fun hvalid => ⟨?_, ?_⟩, fun pre => ⟨⟨pre, ": " ++ resp.rawBody, ?_⟩, ⟨pre ++ toString resp.status ++ ": ", rfl⟩⟩⟩
  · rcases st with ⟨cs, script, sent⟩
    simp only at hscript
    subst hscript
    simp [Authenticate, httpDo, hstatus]
  · unfold GetApplications
    rw [DoRequest_of_valid now .get _ _ st hvalid]
    rcases st with ⟨cs, script, sent⟩
    simp only at hscript
    subst hscript
    simp [httpDo, hstatus]
  · unfold GetVendorConfig
    rw [DoRequest_of_valid now .get _ _ st hvalid]
    rcases st with ⟨cs, script, sent⟩
    simp only at hscript
    subst hscript
    simp [httpDo, hstatus]
  · exact String.append_assoc _ ": " resp.rawBody

/-- Witness for C3 at status 500 with body "boom". -/
theorem crud_error_contains_status_and_body_witness :
    (Authenticate 0 ⟨NewClient "b" "c" "s",
        [Except.ok ⟨500, "boom", Decoded.malformed⟩], []⟩).1
      = Except.error "authentication failed with status 500: boom" := by
  have h := crud_error_contains_status_and_body
    ⟨NewClient "b" "c" "s", [Except.ok ⟨500, "boom", Decoded.malformed⟩], []⟩ 0
    ⟨500, "boom", Decoded.malformed⟩ [] rfl (by decide)
  exact h.1

/-- Claim C4: deleting the tools-import resource is best-effort — the
resource Delete turns any `DeleteToolsBySource` failure into a
"Cleanup Warning" warning diagnostic and never an error, and
`DeleteToolsBySource` returns nil whenever the initial tool listing
succeeds, regardless of how the per-tool deletions fare. -/
theorem tools_delete_best_effort :
    (∀ (now : Int) (appID sourceID : String) (st : St) (resp : Response)
        (rest : List (Except String Response)) (items : List InternalTool),
      st.cs.accessToken ≠ "" ∧ now < st.cs.tokenExpiry →
      st.script = Except.ok resp :: rest →
      resp.status = 200 →
      decodeToolItems resp.decoded = some items →
      (DeleteToolsBySource now appID sourceID st).1 = Except.ok ()) ∧
    (∀ (now : Int) (appID sourceID : String) (st : St),
      ∀ d ∈ (ToolsImportDelete now appID sourceID st).1,
        d.severity = Severity.warning ∧ d.summary = "Cleanup Warning") ∧
    (∀ (now : Int) (appID sourceID : String) (st : St) (e : String),
      (DeleteToolsBySource now appID sourceID st).1 = Except.error e →
      (ToolsImportDelete now appID sourceID st).1
        = [⟨Severity.warning, "Cleanup Warning", "Unable to delete tools: " ++ e⟩]) := by
  refine ⟨?_, ?_, ?_⟩
  · intro now appID sourceID st resp rest items hvalid hscript hstatus hdecode
    unfold DeleteToolsBySource
    rw [DoRequest_of_valid now .get _ _ st hvalid]
    rcases st with ⟨cs, script, sent⟩
    simp only at hscript
    subst hscript
    simp [httpDo, hstatus, hdecode]
  · intro now appID sourceID st d hd
    unfold ToolsImportDelete at hd
    rcases hD : DeleteToolsBySource now appID sourceID st with ⟨res, st'⟩
    rw [hD] at hd
    cases res with
    | error e => simp at hd; subst hd; exact ⟨rfl, rfl⟩
    | ok u => simp at hd
  · intro now appID sourceID st e he
    unfold ToolsImportDelete
    rcases hD : DeleteToolsBySource now appID sourceID st with ⟨res, st'⟩
    rw [hD] at he
    cases res with
    | error e' => simp at he; subst he; simp
    | ok u => simp at he

/-- Witness for C4: the listing succeeds with one tool whose deletion then
fails with status 500, yet the operation still returns nil. -/
theorem tools_delete_best_effort_witness :
    (DeleteToolsBySource 0 "app" "src"
      ⟨{ NewClient "b" "ci" "se" with accessToken := "t", tokenExpiry := 9 },
        [Except.ok ⟨200, "",
           Decoded.toolItems [⟨"t1", "", "", "n", "", "", "", true, [], "", "s"⟩]⟩,
         Except.ok ⟨500, "gone", Decoded.malformed⟩], []⟩).1 = Except.ok () := by
  exact tools_delete_best_effort.1 0 "app" "src"
    ⟨{ NewClient "b" "ci" "se" with accessToken := "t", tokenExpiry := 9 },
      [Except.ok ⟨200, "",
         Decoded.toolItems [⟨"t1", "", "", "n", "", "", "", true, [], "", "s"⟩]⟩,
       Except.ok ⟨500, "gone", Decoded.malformed⟩], []⟩
    ⟨200, "", Decoded.toolItems [⟨"t1", "", "", "n", "", "", "", true, [], "", "s"⟩]⟩
    [Except.ok ⟨500, "gone", Decoded.malformed⟩]
    [⟨"t1", "", "", "n", "", "", "", true, [], "", "s"⟩]
    (by decide) rfl rfl rfl

/-- Claim C6: schema import is a single multipart POST carrying an appId
field and one file part — named "openapi" against the OpenAPI import
endpoint, "graphql" against the GraphQL one; a 200 response decodes into
the imported tool list and any other status yields an error. -/
theorem importSchema_multipart_shape (now : Int) (appID filename : String)
    (content : List Nat) (st : St)
    (hvalid : st.cs.accessToken ≠ "" ∧ now < st.cs.tokenExpiry) :
    ((ImportOpenAPISchema now appID content filename st).2.sent
        = st.sent ++ [⟨.post,
            st.cs.baseURL ++ "/app-integrations/resources/internal-tools/v1/openapi/import",
            .multipart appID "openapi" filename content⟩]) ∧
    ((ImportGraphQLSchema now appID content filename st).2.sent
        = st.sent ++ [⟨.post,
            st.cs.baseURL ++ "/app-integrations/resources/internal-tools/v1/graphql/import",
            .multipart appID "graphql" filename content⟩]) ∧
    (∀ resp rest, st.script = Except.ok resp :: rest →
      (∀ tools, resp.status = 200 → decodeTools resp.decoded = some tools →
        (ImportOpenAPISchema now appID content filename st).1 = Except.ok tools ∧
        (ImportGraphQLSchema now appID content filename st).1 = Except.ok tools) ∧
      (resp.status ≠ 200 →
        (ImportOpenAPISchema now appID content filename st).1
          = Except.error (statusBodyMsg "failed to import schema with status "
              resp.status resp.rawBody) ∧
        (ImportGraphQLSchema now appID content filename st).1
          = Except.error (statusBodyMsg "failed to import schema with status "
              resp.status resp.rawBody))) := by
  refine ⟨?_, ?_, ?_⟩
  · unfold ImportOpenAPISchema importSchema
    rw [GetAccessToken_of_valid now st hvalid]
    rcases hs : st.script with _ | ⟨r, rest'⟩
    · simp [httpDo, hs]
    · cases r with
      | error e => simp [httpDo, hs]
      | ok resp =>
        by_cases h2 : resp.status = 200
        · cases hd : decodeTools resp.decoded <;> simp [httpDo, hs, h2, hd]
        · simp [httpDo, hs, h2]
  · unfold ImportGraphQLSchema importSchema
    rw [GetAccessToken_of_valid now st hvalid]
    rcases hs : st.script with _ | ⟨r, rest'⟩
    · simp [httpDo, hs]
    · cases r with
      | error e => simp [httpDo, hs]
      | ok resp =>
        by_cases h2 : resp.status = 200
        · cases hd : decodeTools resp.decoded <;> simp [httpDo, hs, h2, hd]
        · simp [httpDo, hs, h2]
  · intro resp rest hscript
    constructor
    · intro tools hstatus hdecode
      constructor <;>
      · simp only [ImportOpenAPISchema, ImportGraphQLSchema, importSchema]
        rw [GetAccessToken_of_valid now st hvalid]
        rcases st with ⟨cs, script, sent⟩
        simp only at hscript
        subst hscript
        simp [httpDo, hstatus, hdecode]
    · intro hstatus
      constructor <;>
      · simp only [ImportOpenAPISchema, ImportGraphQLSchema, importSchema]
        rw [GetAccessToken_of_valid now st hvalid]
        rcases st with ⟨cs, script, sent⟩
        simp only at hscript
        subst hscript
        simp [httpDo, hstatus]

/-- Witness for C6: a concrete OpenAPI import trace. -/
theorem importSchema_multipart_shape_witness :
    (ImportOpenAPISchema 0 "app" [1, 2] "s.yaml"
      ⟨{ NewClient "https://u" "ci" "se" with accessToken := "t", tokenExpiry := 9 },
        [Except.ok ⟨200, "", Decoded.tools []⟩], []⟩).2.sent
      = [⟨.post, "https://u" ++ "/app-integrations/resources/internal-tools/v1/openapi/import",
          .multipart "app" "openapi" "s.yaml" [1, 2]⟩] := by
  have h := (importSchema_multipart_shape 0 "app" "s.yaml" [1, 2]
    ⟨{ NewClient "https://u" "ci" "se" with accessToken := "t", tokenExpiry := 9 },
      [Except.ok ⟨200, "", Decoded.tools []⟩], []⟩ (by decide)).1
  simpa using h

/-- Claim C8: `ImportAndUpsertSchema` rejects any source type other than
REST and GRAPHQL before issuing a request; a successful import of an empty
tool list returns nil without upserting; otherwise each imported tool gets
SourceID set and exactly that list is upserted with the given AppID and the
source type as ToolType. -/
theorem importAndUpsertSchema_dispatch :
    (∀ (now : Int) (appID sourceID sourceType : String) (content : List Nat)
        (filename : String) (st : St),
      sourceType ≠ "REST" → sourceType ≠ "GRAPHQL" →
      ImportAndUpsertSchema now appID sourceID sourceType content filename st
        = (Except.error ("schema import not supported for source type: " ++ sourceType), st)) ∧
    (∀ (now : Int) (appID sourceID : String) (content : List Nat)
        (filename : String) (st st₁ : St),
      ImportOpenAPISchema now appID content filename st = (Except.ok [], st₁) →
      ImportAndUpsertSchema now appID sourceID "REST" content filename st
        = (Except.ok (), st₁)) ∧
    (∀ (now : Int) (appID sourceID : String) (content : List Nat)
        (filename : String) (st st₁ st₂ : St) (tools : List InternalTool)
        (r : Except String (List InternalTool)),
      ImportOpenAPISchema now appID content filename st = (Except.ok tools, st₁) →
      tools ≠ [] →
      UpsertTools now
          ⟨appID, "REST", tools.map (fun t => { t with sourceID := sourceID })⟩ st₁
        = (r, st₂) →
      ImportAndUpsertSchema now appID sourceID "REST" content filename st
        = (match r with
           | .error e => (Except.error ("failed to upsert tools: " ++ e), st₂)
           | .ok _ => (Except.ok (), st₂))) ∧
    (∀ (now : Int) (appID sourceID : String) (content : List Nat)
        (filename : String) (st st₁ : St),
      ImportGraphQLSchema now appID content filename st = (Except.ok [], st₁) →
      ImportAndUpsertSchema now appID sourceID "GRAPHQL" content filename st
        = (Except.ok (), st₁)) ∧
    (∀ (now : Int) (appID sourceID : String) (content : List Nat)
        (filename : String) (st st₁ st₂ : St) (tools : List InternalTool)
        (r : Except String (List InternalTool)),
      ImportGraphQLSchema now appID content filename st = (Except.ok tools, st₁) →
      tools ≠ [] →
      UpsertTools now
          ⟨appID, "GRAPHQL", tools.map (fun t => { t with sourceID := sourceID })⟩ st₁
        = (r, st₂) →
      ImportAndUpsertSchema now appID sourceID "GRAPHQL" content filename st
        = (match r with
           | .error e => (Except.error ("failed to upsert tools: " ++ e), st₂)
           | .ok _ => (Except.ok (), st₂))) := by
  refine ⟨?_, ?_, ?_, ?_, ?_⟩
  · intro now appID sourceID sourceType content filename st h1 h2
    simp [ImportAndUpsertSchema, h1, h2]
  · intro now appID sourceID content filename st st₁ hImp
    simp [ImportAndUpsertSchema, hImp]
  · intro now appID sourceID content filename st st₁ st₂ tools r hImp hne hUp
    have hlen : ¬ tools.length = 0 := by simpa [List.length_eq_zero] using hne
    cases r with
    | error e => simp [ImportAndUpsertSchema, hImp, hlen, hUp]
    | ok v => simp [ImportAndUpsertSchema, hImp, hlen, hUp]
  · intro now appID sourceID content filename st st₁ hImp
    simp [ImportAndUpsertSchema, hImp]
  · intro now appID sourceID content filename st st₁ st₂ tools r hImp hne hUp
    have hlen : ¬ tools.length = 0 := by simpa [List.length_eq_zero] using hne
    cases r with
    | error e => simp [ImportAndUpsertSchema, hImp, hlen, hUp]
    | ok v => simp [ImportAndUpsertSchema, hImp, hlen, hUp]

/-- Witness for C8: an unsupported source type fails with no request
issued. -/
theorem importAndUpsertSchema_dispatch_witness :
    ImportAndUpsertSchema 0 "app" "src" "SOAP" [1] "f"
      ⟨NewClient "b" "ci" "se", [], []⟩
      = (Except.error ("schema import not supported for source type: " ++ "SOAP"),
         ⟨NewClient "b" "ci" "se", [], []⟩) := by
  exact importAndUpsertSchema_dispatch.1 0 "app" "src" "SOAP" [1] "f"
    ⟨NewClient "b" "ci" "se", [], []⟩ (by decide) (by decide)

/-- Claim C9: provider Configure resolves the API base URL by letting a
non-empty base_url (configuration over environment) win with the region
ignored; otherwise the region (configuration over environment, defaulting
to "eu" when both are empty) is looked up in the fixed map covering exactly
stg, eu, us, au, ca and uk, and an unmapped region yields the
"Invalid Frontegg Region" error diagnostic instead of a client. -/
theorem configure_base_url_resolution :
    (∀ (envRegion envBaseURL : String) (cfgRegion cfgBaseURL : Option String),
      effConfig envBaseURL cfgBaseURL ≠ "" →
      resolveBaseURL envRegion envBaseURL cfgRegion cfgBaseURL
        = Except.ok (effConfig envBaseURL cfgBaseURL)) ∧
    (∀ (envRegion envBaseURL : String) (cfgRegion cfgBaseURL : Option String),
      effConfig envBaseURL cfgBaseURL = "" →
      ∀ r, (if effConfig envRegion cfgRegion = "" then "eu"
            else effConfig envRegion cfgRegion) = r →
      (∀ url, regionURLs r = some url →
        resolveBaseURL envRegion envBaseURL cfgRegion cfgBaseURL = Except.ok url) ∧
      (regionURLs r = none →
        ∃ d, resolveBaseURL envRegion envBaseURL cfgRegion cfgBaseURL = Except.error d ∧
          d.severity = Severity.error ∧ d.summary = "Invalid Frontegg Region")) ∧
    (∀ r, (regionURLs r).isSome ↔ r ∈ validRegions) := by
  refine ⟨?_, ?_, ?_⟩
  · intro envRegion envBaseURL cfgRegion cfgBaseURL h
    simp [resolveBaseURL, h]
  · intro envRegion envBaseURL cfgRegion cfgBaseURL h r hr
    constructor
    · intro url hurl
      simp [resolveBaseURL, h, hr, hurl]
    · intro hnone
      refine ⟨⟨Severity.error, "Invalid Frontegg Region",
        "The region " ++ r ++ " is not valid. Valid regions are: ["
          ++ String.intercalate " " validRegions ++ "]"⟩, ?_, rfl, rfl⟩
      simp [resolveBaseURL, h, hr, hnone]
  · intro r
    unfold regionURLs validRegions
    split_ifs <;> simp_all

/-- Witness for C9: an unmapped region produces the Invalid Frontegg Region
diagnostic. -/
theorem configure_base_url_resolution_witness :
    (∃ d, resolveBaseURL "" "" (some "mars") none = Except.error d ∧
      d.severity = Severity.error ∧ d.summary = "Invalid Frontegg Region") ∧
    resolveBaseURL "us" "" none (some "https://x") = Except.ok "https://x" := by
  constructor
  · exact ((configure_base_url_resolution.2.1 "" "" (some "mars") none rfl
      "mars" rfl).2 rfl)
  · exact configure_base_url_resolution.1 "us" "" none (some "https://x") (by decide)

/-- Claim C10: concurrent token refresh is not de-duplicated — with the
cached token absent or expired, there is an interleaving of two
`GetAccessToken` callers in which both pass the expiry check and each
issues its own POST /auth/vendor. -/
theorem concurrent_refresh_not_deduplicated (c : Client) (now : Int)
    (r1 r2 : AuthResponse) (h : ¬(c.accessToken ≠ "" ∧ now < c.tokenExpiry)) :
    ∃ sched : List Bool,
      (run2 now sched ⟨⟨c, []⟩, .start, .start, r1, r2⟩).sh.trace
        = [(1, authRequest c), (2, authRequest c)] := by
  refine ⟨[true, false, true, false], ?_⟩
  simp [run2, step, stepCaller, h, authRequest]

/-- Witness for C10 on a fresh client (empty token cache). -/
theorem concurrent_refresh_not_deduplicated_witness :
    ∃ sched : List Bool,
      (run2 0 sched ⟨⟨NewClient "b" "ci" "se", []⟩, .start, .start,
          ⟨"t1", 3600⟩, ⟨"t2", 3600⟩⟩).sh.trace
        = [(1, authRequest (NewClient "b" "ci" "se")),
           (2, authRequest (NewClient "b" "ci" "se"))] :=
  concurrent_refresh_not_deduplicated (NewClient "b" "ci" "se") 0
    ⟨"t1", 3600⟩ ⟨"t2", 3600⟩ (by decide)

end Agentlink
